import Mathlib

/-!
Shallow embedding of the `launchdarkly/js-test-helpers` package
(`src/httpserver.ts` and `src/async.ts`): the `AsyncQueue` and `AsyncMutex`
concurrency primitives, the `TestHttpServer` request-capture and
handler-matching pipeline, the `TestHttpHandlers` response constructors
(`respond`, `chunkedStream`, `sseStream`), the port-selection loop of
`startInstance`, and the proxy CONNECT capture path.

Stateful JavaScript objects are embedded as explicit state-passing functions;
pending promise resolvers ("awaiters") are represented by numeric ids, and
resolving/rejecting an awaiter is represented by returning its id together
with the delivered value.
-/

set_option autoImplicit false

universe u

/-- JavaScript string coercion applied to a possibly-`undefined` value, as in
`"event: " + item.type`: an undefined value prints as `"undefined"`. -/
def optToJsString : Option String → String
  | some s => s
  | none => "undefined"

/-- JavaScript truthiness of a possibly-`undefined` string, as in `if (body)`
or `if (item.id)`: `undefined` and the empty string are falsy. -/
def jsTruthyStr : Option String → Bool
  | some s => s != ""
  | none => false

/-- JavaScript `String.prototype.toLowerCase()` on method strings:
lower-case every character. -/
def jsToLower (s : String) : String :=
  String.mk (s.data.map Char.toLower)

/-! ## AsyncQueue (src/async.ts lines 831-914) -/

/-- State of an `AsyncQueue<T>`: the backing `items` array, the `awaiters`
array of pending `take()` promise resolvers (by id, oldest first), and the
`closed` flag. -/
structure AsyncQueue (T : Type u) where
  items : List T
  awaiters : List Nat
  closed : Bool
deriving DecidableEq, Repr

/-- Outcome of a `take()` call: an immediately resolved item, a rejection
with the `QueueClosed` error, or suspension (a new awaiter was registered). -/
inductive TakeResult (T : Type u) where
  | value : T → TakeResult T
  | rejected : TakeResult T
  | suspended : TakeResult T
deriving DecidableEq, Repr

/-- A freshly constructed queue: empty, no awaiters, open. -/
def AsyncQueue.empty {T : Type u} : AsyncQueue T :=
  { items := [], awaiters := [], closed := false }

/-- `AsyncQueue.add`: if closed, do nothing; else if an awaiter is pending,
resolve the oldest awaiter with the item (returned as `some (waiter, item)`);
otherwise append the item to the backing array. -/
def AsyncQueue.add {T : Type u} (s : AsyncQueue T) (item : T) :
    AsyncQueue T × Option (Nat × T) :=
  if s.closed then (s, none)
  else
    match s.awaiters with
    | w :: rest => ({ s with awaiters := rest }, some (w, item))
    | [] => ({ s with items := s.items ++ [item] }, none)

/-- `AsyncQueue.take`: if the backing array is non-empty, remove and resolve
with its first element; else if closed, reject; else register `wid` as a new
awaiter and suspend. -/
def AsyncQueue.take {T : Type u} (s : AsyncQueue T) (wid : Nat) :
    AsyncQueue T × TakeResult T :=
  match s.items with
  | x :: rest => ({ s with items := rest }, .value x)
  | [] =>
    if s.closed then (s, .rejected)
    else ({ s with awaiters := s.awaiters ++ [wid] }, .suspended)

/-- `AsyncQueue.close`: reject every pending awaiter (returned in FIFO order)
and set the closed flag. -/
def AsyncQueue.close {T : Type u} (s : AsyncQueue T) :
    AsyncQueue T × List Nat :=
  ({ items := s.items, awaiters := [], closed := true }, s.awaiters)

/-- `AsyncQueue.isEmpty`: reflects only the backing array. -/
def AsyncQueue.isEmpty {T : Type u} (s : AsyncQueue T) : Bool :=
  s.items.length == 0

/-- `AsyncQueue.length`: the number of stored items. -/
def AsyncQueue.length {T : Type u} (s : AsyncQueue T) : Nat :=
  s.items.length

/-- A sequence of `add` calls, oldest first. -/
def AsyncQueue.addAll {T : Type u} (s : AsyncQueue T) (xs : List T) : AsyncQueue T :=
  xs.foldl (fun q x => (q.add x).1) s

/-- The results of `n` successive `take()` calls. -/
def AsyncQueue.drain {T : Type u} : AsyncQueue T → Nat → List (TakeResult T)
  | _, 0 => []
  | s, n + 1 =>
    let (s', r) := s.take 0
    r :: s'.drain n

/-- The queue invariant from the spec: at any instant at least one of the
item sequence and the awaiter sequence is empty. -/
def AsyncQueue.inv {T : Type u} (s : AsyncQueue T) : Prop :=
  s.items = [] ∨ s.awaiters = []

instance {T : Type u} [DecidableEq T] (s : AsyncQueue T) : Decidable s.inv := by
  unfold AsyncQueue.inv
  infer_instance

/-! ## AsyncMutex (src/async.ts lines 922-977) -/

/-- State of an `AsyncMutex`: `held` counts the holder plus all queued
waiters (0 = free); `awaiters` lists the pending `acquire()` callers by id,
oldest first. -/
structure AsyncMutex where
  held : Nat
  awaiters : List Nat
deriving DecidableEq, Repr

/-- A freshly constructed mutex: free, no waiters. -/
def AsyncMutex.init : AsyncMutex :=
  { held := 0, awaiters := [] }

/-- Outcome of an `acquire()` call: the lock was taken immediately, or the
caller was queued and suspended. -/
inductive AcquireOutcome where
  | acquiredNow
  | queued
deriving DecidableEq, Repr

/-- `AsyncMutex.acquire` by caller `i`: if free, mark held and return
immediately; otherwise enqueue the caller and increment the count. -/
def AsyncMutex.acquire (s : AsyncMutex) (i : Nat) : AsyncMutex × AcquireOutcome :=
  if s.held = 0 then
    ({ held := 1, awaiters := s.awaiters }, .acquiredNow)
  else
    ({ held := s.held + 1, awaiters := s.awaiters ++ [i] }, .queued)

/-- `AsyncMutex.release`: if never acquired, do nothing; if a waiter is
pending, dequeue the oldest waiter, decrement the count and resume it
(returned as `some waiter`); otherwise mark free. -/
def AsyncMutex.release (s : AsyncMutex) : AsyncMutex × Option Nat :=
  if s.held = 0 then (s, none)
  else
    match s.awaiters with
    | w :: rest => ({ held := s.held - 1, awaiters := rest }, some w)
    | [] => ({ s with held := 0 }, none)

/-- Ghost-extended mutex run: the raw state plus the current holder and the
sequence of grants (callers that have been given the lock, in grant order). -/
structure MutexRun where
  state : AsyncMutex
  holder : Option Nat
  grants : List Nat
deriving DecidableEq, Repr

/-- The run starting from a freshly constructed mutex. -/
def MutexRun.start : MutexRun :=
  { state := AsyncMutex.init, holder := none, grants := [] }

/-- One `acquire()` call by `i` in a run: an immediate acquisition makes `i`
the holder and records a grant. -/
def MutexRun.acquireStep (r : MutexRun) (i : Nat) : MutexRun :=
  match r.state.acquire i with
  | (s', .acquiredNow) => { state := s', holder := some i, grants := r.grants ++ [i] }
  | (s', .queued) => { state := s', holder := r.holder, grants := r.grants }

/-- One `release()` call in a run: a resumed waiter becomes the holder
directly and a grant is recorded; a release with no waiters frees the lock;
a release of a free lock changes nothing. -/
def MutexRun.releaseStep (r : MutexRun) : MutexRun :=
  match r.state.release with
  | (s', some w) => { state := s', holder := some w, grants := r.grants ++ [w] }
  | (s', none) =>
    { state := s', holder := if r.state.held = 0 then r.holder else none, grants := r.grants }

/-- A sequence of `acquire()` calls by the listed callers, in call order. -/
def MutexRun.acquireAll (r : MutexRun) (ids : List Nat) : MutexRun :=
  ids.foldl MutexRun.acquireStep r

/-- `n` successive `release()` calls. -/
def MutexRun.releaseN (r : MutexRun) : Nat → MutexRun
  | 0 => r
  | n + 1 => r.releaseStep.releaseN n

/-! ## TestHttpServer request pipeline (src/httpserver.ts) -/

/-- A `TestHttpRequest` wrapper as captured by the server: lower-cased
method, raw request path, headers, and the optional fully-read body. -/
structure TestHttpRequest where
  method : String
  path : String
  headers : List (String × String)
  body : Option String
deriving DecidableEq, Repr

/-- The relevant parts of a Node `http.IncomingMessage`: the raw method and
url, the headers, and the content that `readAllStream` would produce from
the body stream. -/
structure IncomingMessage where
  method : String
  url : String
  headers : List (String × String)
  bodyContent : String
deriving DecidableEq, Repr

/-- One observable call on a Node `http.ServerResponse`. -/
inductive ResponseAction where
  | writeHead (status : Nat) (headers : Option (List (String × String)))
  | write (chunk : String)
  | endResponse
deriving DecidableEq, Repr

/-- A request handler, observed as the response calls it performs. -/
def Handler : Type :=
  TestHttpRequest → List ResponseAction

/-- A registered matcher entry: `forMethodAndPath` closes over the
registered method and path and the handler to invoke on a match. -/
structure HandlerEntry where
  method : String
  path : String
  handler : Handler

/-- The predicate tested by a `forMethodAndPath` matcher closure:
`req.method === method.toLowerCase() && req.path === path`. -/
def matcherMatches (e : HandlerEntry) (req : TestHttpRequest) : Bool :=
  req.method == jsToLower e.method && req.path == e.path

/-- Case-insensitive equality of two HTTP method strings. -/
def methodEqCaseInsensitive (a b : String) : Bool :=
  jsToLower a == jsToLower b

/-- `TestHttpHandlers.respond(status, headers?, body?)`: write the status
and headers, write the body only if it is truthy, end the response. -/
def TestHttpHandlers.respond (status : Nat) (headers : Option (List (String × String)))
    (body : Option String) : Handler :=
  fun _ =>
    [ResponseAction.writeHead status headers] ++
      (if jsTruthyStr body then [ResponseAction.write (body.getD "")] else []) ++
      [ResponseAction.endResponse]

/-- State of a `TestHttpServer` (non-proxy request path): the captured
request queue, the matcher list (newest first, built by `unshift`), the
default handler, and the request counter. -/
structure TestHttpServer where
  requests : AsyncQueue TestHttpRequest
  matchers : List HandlerEntry
  defaultHandler : Handler
  count : Nat

/-- A freshly constructed server: empty queue, no matchers, zero count, and
`defaultHandler = TestHttpHandlers.respond(404)`. -/
def TestHttpServer.start : TestHttpServer :=
  { requests := AsyncQueue.empty
    matchers := []
    defaultHandler := TestHttpHandlers.respond 404 none none
    count := 0 }

/-- `TestHttpServer.forMethodAndPath`: `unshift` a new matcher closure onto
the front of the matcher list. -/
def TestHttpServer.forMethodAndPath (s : TestHttpServer) (method path : String)
    (handler : Handler) : TestHttpServer :=
  { s with matchers := { method := method, path := path, handler := handler } :: s.matchers }

/-- `TestHttpServer.byDefault`: replace the default handler. -/
def TestHttpServer.byDefault (s : TestHttpServer) (handler : Handler) : TestHttpServer :=
  { s with defaultHandler := handler }

/-- The pure part of `preprocessRequest`: lower-case the method, read the
body in full only for post/put/report, and build the request wrapper with
the raw request path. -/
def mkWrapper (req : IncomingMessage) : TestHttpRequest :=
  let method := jsToLower req.method
  let body :=
    if method == "post" || method == "put" || method == "report" then some req.bodyContent
    else none
  { method := method, path := req.url, headers := req.headers, body := body }

/-- `TestHttpServer.preprocessRequest`: build the wrapper, increment the
request counter, and add the wrapper to the request queue. -/
def TestHttpServer.preprocessRequest (s : TestHttpServer) (req : IncomingMessage) :
    TestHttpServer × TestHttpRequest :=
  let w := mkWrapper req
  ({ s with count := s.count + 1, requests := (s.requests.add w).1 }, w)

/-- The matcher loop of the request listener: invoke the first matcher in
the list (newest first) whose predicate holds, else the default handler. -/
def TestHttpServer.dispatch (s : TestHttpServer) (w : TestHttpRequest) :
    List ResponseAction :=
  match s.matchers.find? (fun e => matcherMatches e w) with
  | some e => e.handler w
  | none => s.defaultHandler w

/-- An observable event of the request listener, in occurrence order. -/
inductive ServerEvent where
  | captured (w : TestHttpRequest)
  | handlerRun (actions : List ResponseAction)
deriving DecidableEq, Repr

/-- The non-proxy request listener: preprocess (capture, count, enqueue),
then run the matcher loop; events are listed in the order they occur. -/
def TestHttpServer.handleRequest (s : TestHttpServer) (req : IncomingMessage) :
    TestHttpServer × List ServerEvent :=
  let (s', w) := s.preprocessRequest req
  (s', [ServerEvent.captured w, ServerEvent.handlerRun (s'.dispatch w)])

/-! ## SSE and chunked streaming (TestHttpHandlers, src/httpserver.ts) -/

/-- An `SSEItem`: optional event type, id, data and comment fields. -/
structure SSEItem where
  type : Option String
  id : Option String
  data : Option String
  comment : Option String
deriving DecidableEq, Repr

/-- The chunk built for one `SSEItem` by the `sseStream` pump loop: start
empty; a defined comment sets the chunk to `":" + comment + "\n"`; a defined
data field overwrites the chunk with `"event: " + type + "\n"`, then appends
`"id: " + id` (no trailing newline) only if `id` is truthy, then appends
`"data: " + data + "\n\n"`. -/
def sseChunkFor (item : SSEItem) : String :=
  let chunk := ""
  let chunk :=
    match item.comment with
    | some c => ":" ++ c ++ "\n"
    | none => chunk
  match item.data with
  | none => chunk
  | some d =>
    let chunk := "event: " ++ optToJsString item.type ++ "\n"
    let chunk := if jsTruthyStr item.id then chunk ++ "id: " ++ item.id.getD "" else chunk
    chunk ++ "data: " ++ d ++ "\n\n"

/-- The claim's reading of the per-item format, with the id line emitted
whenever the `id` field is defined ("when id is set"). -/
def sseClaimChunk (item : SSEItem) : String :=
  let chunk := ""
  let chunk :=
    match item.comment with
    | some c => ":" ++ c ++ "\n"
    | none => chunk
  match item.data with
  | none => chunk
  | some d =>
    let chunk := "event: " ++ optToJsString item.type ++ "\n"
    let chunk :=
      match item.id with
      | some i => chunk ++ "id: " ++ i
      | none => chunk
    chunk ++ "data: " ++ d ++ "\n\n"

/-- The amended per-item format: as the claim states it, except that the id
line is emitted only when `id` is set to a non-empty string. -/
def sseAmendedChunk (item : SSEItem) : String :=
  match item.data with
  | some d =>
    let eventLine := "event: " ++ optToJsString item.type ++ "\n"
    let withId :=
      match item.id with
      | some i => if i = "" then eventLine else eventLine ++ "id: " ++ i
      | none => eventLine
    withId ++ "data: " ++ d ++ "\n\n"
  | none =>
    match item.comment with
    | some c => ":" ++ c ++ "\n"
    | none => ""

/-- The `sseStream` pump loop draining the event queue: each successful
`take()` formats one chunk and adds it to the chunk queue; a rejected
`take()` closes the chunk queue (second component `true`) and stops. -/
def ssePump (q : AsyncQueue SSEItem) : Nat → List String × Bool
  | 0 => ([], false)
  | fuel + 1 =>
    match q.take 0 with
    | (q', .value item) =>
      let (rest, closedChunks) := ssePump q' fuel
      (sseChunkFor item :: rest, closedChunks)
    | (_, .rejected) => ([], true)
    | (_, .suspended) => ([], false)

/-- `TestHttpHandlers.chunkedStream(status, headers, chunkQueue)` observed on
a chunk sequence ending with queue closure: write head, write `""` to force
chunked mode, write each chunk as it arrives, end the response when the
queue close is observed. -/
def chunkedStreamActions (status : Nat) (headers : List (String × String))
    (chunks : List String) : List ResponseAction :=
  ResponseAction.writeHead status (some headers) :: ResponseAction.write "" ::
    (chunks.map ResponseAction.write ++ [ResponseAction.endResponse])

/-- The body bytes written by a sequence of response actions. -/
def responseBody (actions : List ResponseAction) : String :=
  actions.foldl
    (fun acc a =>
      match a with
      | .write c => acc ++ c
      | _ => acc)
    ""

/-- The full `sseStream` response for a scenario in which the listed events
are pushed onto the event queue and the queue is then closed before the pump
drains it: the pump consumes the closed queue and feeds
`chunkedStream(200, Content-Type text/event-stream)`. -/
def sseStreamBody (events : List SSEItem) (fuel : Nat) : String :=
  let q := ((AsyncQueue.empty.addAll events).close).1
  let (chunks, _) := ssePump q fuel
  responseBody (chunkedStreamActions 200 [("Content-Type", "text/event-stream")] chunks)

/-! ## startInstance port selection (src/httpserver.ts lines 325-344) -/

/-- The outcome of binding one port: success, the EADDRINUSE failure, or any
other bind failure with its message. -/
inductive BindOutcome where
  | ok
  | addrInUse
  | otherErr (msg : String)
deriving DecidableEq, Repr

/-- The result of `startInstance`. -/
inductive StartResult where
  | started (port : Nat)
  | failed (msg : String)
  | exhausted
deriving DecidableEq, Repr

/-- The `startInstance` retry loop under auto port selection: try the next
port from the shared counter; on success stop; on EADDRINUSE retry with the
incremented port; on any other bind failure rethrow immediately. The result
carries the list of ports tried, in order; `fuel` bounds the loop. -/
def startInstance (env : Nat → BindOutcome) (port : Nat) :
    Nat → StartResult × List Nat
  | 0 => (.exhausted, [])
  | fuel + 1 =>
    match env port with
    | .ok => (.started port, [port])
    | .addrInUse =>
      let (r, tried) := startInstance env (port + 1) fuel
      (r, port :: tried)
    | .otherErr msg => (.failed msg, [port])

/-- Modelled from the spec: the fixed-port startup path (the optional port
argument of `start`, present in the repository's tests and changelog but not
in this source snapshot). Per the spec, when the caller explicitly requests
a fixed port no retry or port increment occurs and any bind failure —
including address-in-use — is fatal immediately and surfaces to the caller. -/
def startInstanceFixedPort (env : Nat → BindOutcome) (port : Nat) :
    StartResult × List Nat :=
  match env port with
  | .ok => (.started port, [port])
  | .addrInUse => (.failed "EADDRINUSE", [port])
  | .otherErr msg => (.failed msg, [port])

/-! ## Proxy CONNECT capture (src/httpserver.ts lines 232-245) -/

/-- The mutable state seen by the CONNECT listener: a heap of allocated
request wrappers (the queue stores references into it, modelling JavaScript
object references), the request queue of references, and the counter. -/
structure ProxyConnectState where
  heap : List TestHttpRequest
  queue : AsyncQueue Nat
  count : Nat
deriving DecidableEq, Repr

/-- The CONNECT listener's capture steps: `preprocessRequest` allocates the
wrapper, increments the counter and pushes a reference to the wrapper onto
the request queue; then the listener mutates the shared wrapper in place,
rewriting its `path` to `"http://" + path`. -/
def connectCapture (st : ProxyConnectState) (req : IncomingMessage) :
    ProxyConnectState × Nat :=
  let w := mkWrapper req
  let r := st.heap.length
  let heap1 := st.heap ++ [w]
  let q1 := (st.queue.add r).1
  let heap2 := heap1.set r { w with path := "http://" ++ w.path }
  ({ heap := heap2, queue := q1, count := st.count + 1 }, r)

/-! ## Helper lemmas about the queue operations -/

/-- `add` on an open queue with no pending awaiters appends to the backing
array and delivers to no awaiter. -/
theorem AsyncQueue.add_stores {T : Type u} (s : AsyncQueue T) (x : T)
    (hclosed : s.closed = false) (hwait : s.awaiters = []) :
    s.add x = ({ s with items := s.items ++ [x] }, none) := by
  simp [AsyncQueue.add, hclosed, hwait]

/-- `add` on an open queue with a pending awaiter delivers the item to the
oldest awaiter and leaves the backing array unchanged. -/
theorem AsyncQueue.add_delivers {T : Type u} (s : AsyncQueue T) (x : T) (w : Nat)
    (rest : List Nat) (hclosed : s.closed = false) (hwait : s.awaiters = w :: rest) :
    s.add x = ({ s with awaiters := rest }, some (w, x)) := by
  simp [AsyncQueue.add, hclosed, hwait]

/-- Adding a list of items to an open queue with no awaiters appends them
all, in order. -/
theorem AsyncQueue.addAll_open {T : Type u} (xs : List T) (items : List T) :
    AsyncQueue.addAll { items := items, awaiters := [], closed := false } xs =
      { items := items ++ xs, awaiters := [], closed := false } := by
  induction xs generalizing items with
  | nil => simp [AsyncQueue.addAll]
  | cons x xs ih =>
    rw [AsyncQueue.addAll, List.foldl_cons]
    rw [AsyncQueue.add_stores _ _ rfl rfl]
    have h := ih (items ++ [x])
    rw [AsyncQueue.addAll] at h
    rw [h]
    simp

/-- Draining an open queue with no awaiters returns exactly its stored
items, in order, each resolved immediately. -/
theorem AsyncQueue.drain_open {T : Type u} (xs : List T) :
    AsyncQueue.drain { items := xs, awaiters := [], closed := false } xs.length =
      xs.map TakeResult.value := by
  induction xs with
  | nil => simp [AsyncQueue.drain]
  | cons x rest ih => simp [AsyncQueue.drain, AsyncQueue.take, ih]

/-- Draining a closed queue returns its stored items in order and then a
rejection for every further `take()`. -/
theorem AsyncQueue.drain_closed {T : Type u} (xs : List T) (n : Nat) :
    AsyncQueue.drain { items := xs, awaiters := [], closed := true } (xs.length + n) =
      xs.map TakeResult.value ++ List.replicate n TakeResult.rejected := by
  induction xs with
  | nil =>
    simp only [List.length_nil, Nat.zero_add, List.map_nil, List.nil_append]
    induction n with
    | zero => simp [AsyncQueue.drain]
    | succ m ihm => simp [AsyncQueue.drain, AsyncQueue.take, ihm, List.replicate_succ]
  | cons x rest ih =>
    simp only [List.length_cons]
    rw [Nat.succ_add]
    simp [AsyncQueue.drain, AsyncQueue.take, ih]

/-- C5: For every `AsyncQueue` and every sequence of calls
`add(x1), ..., add(xn)` issued before any `take`, the following `n`
`take()` calls return `x1, ..., xn` in that order, each resolving
immediately (a `TakeResult.value`, not a suspension). -/
theorem asyncQueue_fifo_order {T : Type u} (xs : List T) :
    (AsyncQueue.empty.addAll xs).drain xs.length = xs.map TakeResult.value := by
  rw [show (AsyncQueue.empty : AsyncQueue T) =
    { items := [], awaiters := [], closed := false } from rfl]
  rw [AsyncQueue.addAll_open]
  simpa using AsyncQueue.drain_open xs

/-- C1: After `close()` on any queue state: every pending awaiter is
rejected (in FIFO order) with the `QueueClosed` error; the closed flag is
set; every subsequent `add` returns the queue unchanged and delivers
nothing; and the next `length + n` `take()` calls return the stored items
in FIFO order followed by `n` `QueueClosed` rejections — takes succeed
while items remain and fail once the queue is empty. -/
theorem asyncQueue_close_semantics {T : Type u} (s : AsyncQueue T) :
    (s.close).2 = s.awaiters ∧
    (s.close).1.closed = true ∧
    (∀ x, (s.close).1.add x = ((s.close).1, none)) ∧
    (∀ n, (s.close).1.drain (s.items.length + n) =
      s.items.map TakeResult.value ++ List.replicate n TakeResult.rejected) := by
  refine ⟨rfl, rfl, ?_, ?_⟩
  · intro x
    simp [AsyncQueue.close, AsyncQueue.add]
  · intro n
    exact AsyncQueue.drain_closed s.items n

/-- C8: the queue invariant (at least one of the item sequence and the
awaiter sequence is empty) is preserved by `add`, `take` and `close`; and an
added item is either appended to the backing array (no awaiter pending) or
handed to the oldest pending awaiter with the backing array untouched —
never both. -/
theorem asyncQueue_invariant_preserved {T : Type u} (s : AsyncQueue T) (x : T)
    (wid : Nat) (h : s.inv) :
    (s.add x).1.inv ∧
    (s.take wid).1.inv ∧
    (s.close).1.inv ∧
    (s.closed = false → s.awaiters = [] →
      s.add x = ({ s with items := s.items ++ [x] }, none)) ∧
    (∀ w rest, s.closed = false → s.awaiters = w :: rest →
      s.add x = ({ s with awaiters := rest }, some (w, x)) ∧
        (s.add x).1.items = s.items) := by
  refine ⟨?_, ?_, ?_, ?_, ?_⟩
  · rcases h with h | h
    · by_cases hc : s.closed
      · simpa [AsyncQueue.add, hc] using Or.inl h
      · cases hw : s.awaiters with
        | nil => simp [AsyncQueue.add, hc, hw, AsyncQueue.inv]
        | cons w rest => simp [AsyncQueue.add, hc, hw, AsyncQueue.inv, h]
    · by_cases hc : s.closed
      · simpa [AsyncQueue.add, hc] using Or.inr h
      · simp [AsyncQueue.add, hc, h, AsyncQueue.inv]
  · cases hi : s.items with
    | nil =>
      by_cases hc : s.closed
      · simpa [AsyncQueue.take, hi, hc] using h
      · simp [AsyncQueue.take, hi, hc, AsyncQueue.inv]
    | cons y rest =>
      rcases h with h | h
      · simp [hi] at h
      · simp [AsyncQueue.take, hi, AsyncQueue.inv, h]
  · simp [AsyncQueue.close, AsyncQueue.inv]
  · intro hc hw
    exact AsyncQueue.add_stores s x hc hw
  · intro w rest hc hw
    refine ⟨AsyncQueue.add_delivers s x w rest hc hw, ?_⟩
    rw [AsyncQueue.add_delivers s x w rest hc hw]

/-- Witness for the invariant-preservation theorem at a concrete queue
state: one stored item, no awaiters, open. -/
theorem asyncQueue_invariant_preserved_witness :
    (AsyncQueue.mk [5] [] false : AsyncQueue Nat).inv ∧
    ((AsyncQueue.mk [5] [] false : AsyncQueue Nat).add 7).1.inv ∧
    ((AsyncQueue.mk [5] [] false : AsyncQueue Nat).take 0).1.inv ∧
    ((AsyncQueue.mk [5] [] false : AsyncQueue Nat).close).1.inv :=
  have h : (AsyncQueue.mk [5] [] false : AsyncQueue Nat).inv := Or.inr rfl
  have hmain := asyncQueue_invariant_preserved (AsyncQueue.mk [5] [] false) 7 0 h
  ⟨h, hmain.1, hmain.2.1, hmain.2.2.1⟩

/-! ## Helper lemmas about the mutex run semantics -/

/-- An `acquire()` while the mutex is held (by anyone) only queues: the
callers are appended to the waiter list in call order and the count grows. -/
theorem MutexRun.acquireAll_held (rest : List Nat) (r : MutexRun)
    (h : r.state.held ≠ 0) :
    r.acquireAll rest =
      { state := { held := r.state.held + rest.length, awaiters := r.state.awaiters ++ rest }
        holder := r.holder
        grants := r.grants } := by
  induction rest generalizing r with
  | nil => simp [MutexRun.acquireAll]
  | cons j rest ih =>
    rw [MutexRun.acquireAll, List.foldl_cons]
    have hstep : r.acquireStep j =
        { state := { held := r.state.held + 1, awaiters := r.state.awaiters ++ [j] }
          holder := r.holder
          grants := r.grants } := by
      simp [MutexRun.acquireStep, AsyncMutex.acquire, h]
    rw [hstep]
    have h2 := ih { state := { held := r.state.held + 1, awaiters := r.state.awaiters ++ [j] }
                    holder := r.holder
                    grants := r.grants } (by simp)
    rw [MutexRun.acquireAll] at h2
    rw [h2]
    simp
    omega

/-- Peeling a `release()` off the end of a release sequence instead of the
front. -/
theorem MutexRun.releaseN_succ (r : MutexRun) (n : Nat) :
    r.releaseN (n + 1) = (r.releaseN n).releaseStep := by
  induction n generalizing r with
  | zero => rfl
  | succ m ih =>
    rw [MutexRun.releaseN, ih]
    rfl

/-- Releasing `m ≤ k` times from a mutex whose holder is `i` and whose `k`
waiters are `ids` (oldest first): each release transfers the lock to the
oldest remaining waiter, so the holder, grant sequence, count and remaining
waiters are all determined by `m`. -/
theorem MutexRun.releaseN_loaded (m : Nat) (i : Nat) (ids : List Nat)
    (grants : List Nat) (hm : m ≤ ids.length) :
    MutexRun.releaseN
        { state := { held := ids.length + 1, awaiters := ids }
          holder := some i
          grants := grants } m =
      { state := { held := ids.length + 1 - m, awaiters := ids.drop m }
        holder := (i :: ids)[m]?
        grants := grants ++ ids.take m } := by
  induction m generalizing i ids grants with
  | zero => simp [MutexRun.releaseN]
  | succ m ih =>
    cases ids with
    | nil => simp at hm
    | cons w rest =>
      rw [MutexRun.releaseN]
      have hstep :
          (MutexRun.releaseStep
            { state := { held := (w :: rest).length + 1, awaiters := w :: rest }
              holder := some i
              grants := grants }) =
          { state := { held := rest.length + 1, awaiters := rest }
            holder := some w
            grants := grants ++ [w] } := by
        simp [MutexRun.releaseStep, AsyncMutex.release, List.length_cons]
      rw [hstep]
      have h2 := ih w rest (grants ++ [w]) (by simpa using hm)
      rw [h2]
      simp [List.length_cons]

/-- The state reached by `k + 1` concurrent `acquire()` calls (callers
`i :: ids`, in call order) on a fresh mutex, followed by `m` `release()`
calls. -/
def mutexScenario (i : Nat) (ids : List Nat) (m : Nat) : MutexRun :=
  (MutexRun.start.acquireAll (i :: ids)).releaseN m

/-- The acquire phase of the scenario: the first caller acquires
immediately; every later caller is queued in call order. -/
theorem mutexScenario_acquires (i : Nat) (ids : List Nat) :
    MutexRun.start.acquireAll (i :: ids) =
      { state := { held := ids.length + 1, awaiters := ids }
        holder := some i
        grants := [i] } := by
  rw [MutexRun.acquireAll, List.foldl_cons]
  have hfirst : MutexRun.start.acquireStep i =
      { state := { held := 1, awaiters := [] }, holder := some i, grants := [i] } := by
    simp [MutexRun.acquireStep, MutexRun.start, AsyncMutex.acquire, AsyncMutex.init]
  rw [hfirst]
  have h := MutexRun.acquireAll_held ids
    { state := { held := 1, awaiters := [] }, holder := some i, grants := [i] } (by simp)
  rw [MutexRun.acquireAll] at h
  rw [h]
  simp
  omega

/-- C4: strict first-come-first-served mutual exclusion. For `k + 1`
concurrent `acquire()` callers `i :: ids` followed by `m ≤ k` `release()`
calls: the lock has been granted to exactly the first `m + 1` callers in
call order; the unique current holder is the `m`-th caller; the remaining
waiters are the later callers in order; a `release()` with waiters pending
always resumes the oldest waiter as the new holder with the count never
passing through 0 (the free state); and `release()` on a never-acquired
mutex is a no-op that delivers nothing. -/
theorem asyncMutex_fifo_semantics (i : Nat) (ids : List Nat) (m : Nat)
    (hm : m ≤ ids.length) :
    (mutexScenario i ids m).grants = (i :: ids).take (m + 1) ∧
    (mutexScenario i ids m).holder = (i :: ids)[m]? ∧
    ((mutexScenario i ids m).holder).isSome = true ∧
    (mutexScenario i ids m).state.held = ids.length + 1 - m ∧
    (mutexScenario i ids m).state.awaiters = (i :: ids).drop (m + 1) ∧
    (∀ (s : AsyncMutex) (w : Nat) (rest : List Nat), s.held ≠ 0 →
      s.awaiters = w :: rest →
      s.release = ({ held := s.held - 1, awaiters := rest }, some w)) ∧
    (m < ids.length →
      (mutexScenario i ids m).releaseStep.state.held ≠ 0 ∧
      (mutexScenario i ids m).releaseStep.holder = (i :: ids)[m + 1]?) ∧
    AsyncMutex.init.release = (AsyncMutex.init, none) := by
  have hstate : mutexScenario i ids m =
      { state := { held := ids.length + 1 - m, awaiters := ids.drop m }
        holder := (i :: ids)[m]?
        grants := [i] ++ ids.take m } := by
    rw [mutexScenario, mutexScenario_acquires]
    exact MutexRun.releaseN_loaded m i ids [i] hm
  refine ⟨?_, ?_, ?_, ?_, ?_, ?_, ?_, ?_⟩
  · rw [hstate]
    simp [List.take_succ_cons]
  · rw [hstate]
  · rw [hstate]
    have hlt : m < (i :: ids).length := by
      simp [List.length_cons]
      omega
    simp [List.getElem?_eq_getElem hlt]
  · rw [hstate]
  · rw [hstate]
    simp [List.drop_succ_cons]
  · intro s w rest hheld hwait
    simp [AsyncMutex.release, hheld, hwait]
  · intro hlt
    have hnext : (mutexScenario i ids m).releaseStep = mutexScenario i ids (m + 1) := by
      rw [mutexScenario, mutexScenario, MutexRun.releaseN_succ]
    rw [hnext]
    have hstate2 : mutexScenario i ids (m + 1) =
        { state := { held := ids.length + 1 - (m + 1), awaiters := ids.drop (m + 1) }
          holder := (i :: ids)[m + 1]?
          grants := [i] ++ ids.take (m + 1) } := by
      rw [mutexScenario, mutexScenario_acquires]
      exact MutexRun.releaseN_loaded (m + 1) i ids [i] (by omega)
    rw [hstate2]
    constructor
    · simp
      omega
    · rfl
  · simp [AsyncMutex.release, AsyncMutex.init]

/-- Witness for the mutex theorem at three concurrent callers 1, 2, 3 and
one release: callers are granted in call order, caller 2 now holds, caller
3 still waits. -/
theorem asyncMutex_fifo_semantics_witness :
    (1 : Nat) ≤ [2, 3].length ∧
    (mutexScenario 1 [2, 3] 1).grants = [1, 2] ∧
    (mutexScenario 1 [2, 3] 1).holder = some 2 ∧
    (mutexScenario 1 [2, 3] 1).state.awaiters = [3] :=
  have hmain := asyncMutex_fifo_semantics 1 [2, 3] 1 (by decide)
  ⟨by decide, by simpa using hmain.1, by simpa using hmain.2.1, by simpa using hmain.2.2.2.2.1⟩

/-! ## Request capture and handler matching -/

/-- C2: for every accepted request in non-proxy mode, the captured wrapper
has the lower-cased method and the raw request path; the body is fully read
into a string exactly when the lower-cased method is post, put or report
(and is absent otherwise); the request counter is incremented exactly once;
the wrapper is appended to the request queue (when the queue is open with no
pending taker); and in the listener's event order the capture precedes the
single handler invocation. -/
theorem preprocessRequest_capture_semantics (s : TestHttpServer) (req : IncomingMessage) :
    ((s.preprocessRequest req).2).method = jsToLower req.method ∧
    ((s.preprocessRequest req).2).path = req.url ∧
    (((s.preprocessRequest req).2).body = some req.bodyContent ↔
      (jsToLower req.method = "post" ∨ jsToLower req.method = "put" ∨
        jsToLower req.method = "report")) ∧
    (¬(jsToLower req.method = "post" ∨ jsToLower req.method = "put" ∨
        jsToLower req.method = "report") →
      ((s.preprocessRequest req).2).body = none) ∧
    (s.preprocessRequest req).1.count = s.count + 1 ∧
    (s.requests.closed = false → s.requests.awaiters = [] →
      (s.preprocessRequest req).1.requests.items =
        s.requests.items ++ [(s.preprocessRequest req).2]) ∧
    (s.handleRequest req).2 =
      [ServerEvent.captured ((s.preprocessRequest req).2),
       ServerEvent.handlerRun
         (((s.preprocessRequest req).1).dispatch ((s.preprocessRequest req).2))] := by
  refine ⟨rfl, rfl, ?_, ?_, rfl, ?_, rfl⟩
  · by_cases hcond : jsToLower req.method = "post" ∨ jsToLower req.method = "put" ∨
        jsToLower req.method = "report"
    · constructor
      · intro _
        exact hcond
      · intro _
        simp only [TestHttpServer.preprocessRequest, mkWrapper]
        rcases hcond with hc | hc | hc <;> simp [hc]
    · constructor
      · intro hbody
        exfalso
        push_neg at hcond
        simp only [TestHttpServer.preprocessRequest, mkWrapper] at hbody
        simp [hcond.1, hcond.2.1, hcond.2.2] at hbody
      · intro hc
        exact absurd hc hcond
  · intro hcond
    push_neg at hcond
    simp only [TestHttpServer.preprocessRequest, mkWrapper]
    simp [hcond.1, hcond.2.1, hcond.2.2]
  · intro hclosed hwait
    simp only [TestHttpServer.preprocessRequest]
    rw [AsyncQueue.add_stores s.requests (mkWrapper req) hclosed hwait]

/-- Witness for the capture theorem on a fresh server and a concrete POST
request: the method is lower-cased, the body is read, the counter becomes 1
and the wrapper is stored in the queue. -/
theorem preprocessRequest_capture_semantics_witness :
    ((TestHttpServer.start.preprocessRequest
        { method := "POST", url := "/thing", headers := [], bodyContent := "hi" }).2).method
      = "post" ∧
    ((TestHttpServer.start.preprocessRequest
        { method := "POST", url := "/thing", headers := [], bodyContent := "hi" }).2).body
      = some "hi" ∧
    (TestHttpServer.start.preprocessRequest
        { method := "POST", url := "/thing", headers := [], bodyContent := "hi" }).1.count = 1 ∧
    (TestHttpServer.start.preprocessRequest
        { method := "POST", url := "/thing", headers := [], bodyContent := "hi" }).1.requests.items
      = [(TestHttpServer.start.preprocessRequest
          { method := "POST", url := "/thing", headers := [], bodyContent := "hi" }).2] :=
  have hmain := preprocessRequest_capture_semantics TestHttpServer.start
    { method := "POST", url := "/thing", headers := [], bodyContent := "hi" }
  ⟨by rw [hmain.1]; decide, hmain.2.2.1.mpr (Or.inl (by decide)),
    by rw [hmain.2.2.2.2.1]; rfl,
    by simpa using hmain.2.2.2.2.2.1 rfl rfl⟩

/-- C3: request dispatch. Registering a new entry makes it shadow all older
entries (newest-registered-first scan); an entry matches exactly when its
registered method equals the raw request method case-insensitively and its
registered path equals the request path by exact string equality; exactly
one handler fires — the first matching entry in the newest-first scan, or
else the default handler; `byDefault` replaces the fallback, which on a
fresh server responds with status 404. -/
theorem dispatch_matching_semantics (s : TestHttpServer) (m p : String)
    (hd : Handler) (w : TestHttpRequest) (req : IncomingMessage) :
    ((s.forMethodAndPath m p hd).dispatch w =
      if matcherMatches { method := m, path := p, handler := hd } w then hd w
      else s.dispatch w) ∧
    (matcherMatches { method := m, path := p, handler := hd } (mkWrapper req) =
      (methodEqCaseInsensitive req.method m && (mkWrapper req).path == p)) ∧
    ((∃ e, s.matchers.find? (fun e => matcherMatches e w) = some e ∧
        matcherMatches e w = true ∧ s.dispatch w = e.handler w) ∨
      ((∀ e ∈ s.matchers, ¬ matcherMatches e w) ∧
        s.dispatch w = s.defaultHandler w)) ∧
    (s.byDefault hd).defaultHandler = hd ∧
    (s.byDefault hd).matchers = s.matchers ∧
    TestHttpServer.start.dispatch w =
      [ResponseAction.writeHead 404 none, ResponseAction.endResponse] := by
  refine ⟨?_, ?_, ?_, rfl, rfl, rfl⟩
  · by_cases hmatch : matcherMatches { method := m, path := p, handler := hd } w
    · simp [TestHttpServer.dispatch, TestHttpServer.forMethodAndPath,
        List.find?_cons_of_pos, hmatch]
    · simp only [TestHttpServer.dispatch, TestHttpServer.forMethodAndPath]
      rw [List.find?_cons_of_neg _ (by simpa using hmatch)]
      simp [hmatch]
  · simp [matcherMatches, methodEqCaseInsensitive, mkWrapper]
  · cases hfind : s.matchers.find? (fun e => matcherMatches e w) with
    | some e =>
      left
      refine ⟨e, rfl, ?_, ?_⟩
      · have h1 := List.find?_some hfind
        simpa using h1
      · simp [TestHttpServer.dispatch, hfind]
    | none =>
      right
      constructor
      · intro e he
        have := List.find?_eq_none.mp hfind e he
        simpa using this
      · simp [TestHttpServer.dispatch, hfind]

/-- Witness for the dispatch theorem: on a fresh server with a handler
registered for get /path1 and then another for get /path1, the newer one
fires for a matching request, and an unmatched request gets the 404
default. -/
theorem dispatch_matching_semantics_witness :
    ((TestHttpServer.start.forMethodAndPath "get" "/path1"
        (TestHttpHandlers.respond 200 none none)).forMethodAndPath "GET" "/path1"
        (TestHttpHandlers.respond 201 none none)).dispatch
      { method := "get", path := "/path1", headers := [], body := none } =
      [ResponseAction.writeHead 201 none, ResponseAction.endResponse] ∧
    TestHttpServer.start.dispatch
      { method := "get", path := "/missing", headers := [], body := none } =
      [ResponseAction.writeHead 404 none, ResponseAction.endResponse] :=
  have hmain := dispatch_matching_semantics
    (TestHttpServer.start.forMethodAndPath "get" "/path1"
      (TestHttpHandlers.respond 200 none none)) "GET" "/path1"
    (TestHttpHandlers.respond 201 none none)
    { method := "get", path := "/path1", headers := [], body := none }
    { method := "get", url := "/path1", headers := [], bodyContent := "" }
  have hmain2 := dispatch_matching_semantics TestHttpServer.start "x" "/x"
    (TestHttpHandlers.respond 200 none none)
    { method := "get", path := "/missing", headers := [], body := none }
    { method := "get", url := "/missing", headers := [], bodyContent := "" }
  ⟨by rw [hmain.1]; decide, hmain2.2.2.2.2.2⟩

/-! ## SSE formatting, port selection, proxy capture, respond -/

/-- C6 counterexample: for the item with `type = "t"`, `id = ""` (set, but
empty) and `data = "d"`, the code omits the id line, while the claim's
format — which includes `"id: " + id` whenever id is set — does not. -/
theorem sseChunk_id_claim_counterexample :
    sseChunkFor { type := some "t", id := some "", data := some "d", comment := none } =
      "event: t\ndata: d\n\n" ∧
    sseClaimChunk { type := some "t", id := some "", data := some "d", comment := none } =
      "event: t\nid: data: d\n\n" ∧
    sseChunkFor { type := some "t", id := some "", data := some "d", comment := none } ≠
      sseClaimChunk { type := some "t", id := some "", data := some "d", comment := none } :=
  ⟨by decide, by decide, by decide⟩

/-- C6 (amended): every `SSEItem` taken from the event queue yields exactly
one chunk, equal to the spec format in which the comment case emits
`":" + comment + "\n"`, the data case emits the event line, then the id
line (no trailing newline) only when id is set to a non-empty string, then
the data line; a defined data field makes the chunk independent of the
comment field (the data branch replaces the comment branch); and pushing
`{comment:"hi"}` then `{type:"put", data:"stuff"}` and closing the queue
yields the body `":hi\nevent: put\ndata: stuff\n\n"`. -/
theorem sseChunk_format_semantics (item : SSEItem) :
    sseChunkFor item = sseAmendedChunk item ∧
    (∀ c, sseChunkFor { type := none, id := none, data := none, comment := some c } =
      ":" ++ c ++ "\n") ∧
    (∀ t idv d c, sseChunkFor { type := t, id := idv, data := some d, comment := some c } =
      sseChunkFor { type := t, id := idv, data := some d, comment := none }) ∧
    sseStreamBody
        [{ type := none, id := none, data := none, comment := some "hi" },
         { type := some "put", id := none, data := some "stuff", comment := none }] 3 =
      ":hi\nevent: put\ndata: stuff\n\n" := by
  refine ⟨?_, ?_, ?_, by decide⟩
  · rcases item with ⟨t, i, d, c⟩
    cases d with
    | none => cases c <;> rfl
    | some d =>
      cases i with
      | none => cases c <;> rfl
      | some s =>
        by_cases hs : s = ""
        · subst hs
          cases c <;> simp [sseChunkFor, sseAmendedChunk, jsTruthyStr]
        · cases c <;> simp [sseChunkFor, sseAmendedChunk, jsTruthyStr, hs]
  · intro c
    rfl
  · intro t idv d c
    rfl

/-- C7: port selection in `startInstance`. Under auto-assignment, a bind
failure other than address-in-use is fatal immediately — the failing port is
the only one tried and the error surfaces; a retry with the next port
happens exactly on an address-in-use failure; a successful bind stops the
loop. Under an explicitly requested fixed port (modelled from the spec),
only that port is ever tried and every bind failure is fatal. -/
theorem startInstance_retry_semantics (env : Nat → BindOutcome) (port fuel : Nat)
    (msg : String) :
    (env port = .otherErr msg →
      startInstance env port (fuel + 1) = (.failed msg, [port])) ∧
    (env port = .addrInUse →
      startInstance env port (fuel + 1) =
        ((startInstance env (port + 1) fuel).1,
          port :: (startInstance env (port + 1) fuel).2)) ∧
    (env port = .ok → startInstance env port (fuel + 1) = (.started port, [port])) ∧
    (startInstanceFixedPort env port).2 = [port] ∧
    (env port ≠ .ok → ∃ m, (startInstanceFixedPort env port).1 = .failed m) := by
  refine ⟨?_, ?_, ?_, ?_, ?_⟩
  · intro h
    simp [startInstance, h]
  · intro h
    simp [startInstance, h]
  · intro h
    simp [startInstance, h]
  · cases h : env port <;> simp [startInstanceFixedPort, h]
  · intro h
    cases henv : env port with
    | ok => exact absurd henv h
    | addrInUse => exact ⟨"EADDRINUSE", by simp [startInstanceFixedPort, henv]⟩
    | otherErr m => exact ⟨m, by simp [startInstanceFixedPort, henv]⟩

/-- A concrete bind environment: port 8000 is in use, port 8001 fails with
EACCES, everything else binds. -/
def demoBindEnv : Nat → BindOutcome :=
  fun p => if p = 8000 then .addrInUse else if p = 8001 then .otherErr "EACCES" else .ok

/-- Witness for the port-selection theorem on `demoBindEnv`: the in-use
port 8000 is retried as 8001, whose EACCES failure is fatal with no further
retry; a fixed-port start on 8000 fails immediately having tried only
8000. -/
theorem startInstance_retry_semantics_witness :
    demoBindEnv 8000 = .addrInUse ∧
    startInstance demoBindEnv 8000 2 = (.failed "EACCES", [8000, 8001]) ∧
    startInstanceFixedPort demoBindEnv 8000 = (.failed "EADDRINUSE", [8000]) :=
  have hmain := startInstance_retry_semantics demoBindEnv 8000 1 "EACCES"
  ⟨by decide, by rw [hmain.2.1 (by decide)]; decide, by decide⟩

/-- A concrete CONNECT request targeting `example.com:443`. -/
def connectReqDemo : IncomingMessage :=
  { method := "CONNECT", url := "example.com:443", headers := [], bodyContent := "" }

/-- C9 counterexample: on a CONNECT request for `example.com:443`, the
wrapper stored in the heap after the listener runs differs from the wrapper
as created (and pushed): the wrapper is created with the raw path and its
path is mutated to the absolute-URL form only after it has been pushed to
the queue, so it is neither immutable after creation nor captured with the
path already rewritten. -/
theorem connectCapture_mutation_counterexample :
    (connectCapture { heap := [], queue := AsyncQueue.empty, count := 0 }
        connectReqDemo).1.heap ≠ [mkWrapper connectReqDemo] ∧
    (mkWrapper connectReqDemo).path = "example.com:443" ∧
    (connectCapture { heap := [], queue := AsyncQueue.empty, count := 0 }
        connectReqDemo).1.heap
      = [{ mkWrapper connectReqDemo with path := "http://example.com:443" }] :=
  ⟨by decide, by decide, by decide⟩

/-- C9 (amended): in CONNECT tunneling mode exactly one wrapper is created
per request and pushed onto the request queue; after being pushed, the
shared wrapper is mutated exactly once — its path is rewritten to
`"http://" +` the original request path, all other fields unchanged — so a
consumer dereferencing it from the queue after the listener runs observes
only the rewritten absolute-URL form, although the value at creation (and
push) time carried the raw path. -/
theorem connectCapture_rewrite_semantics (st : ProxyConnectState) (req : IncomingMessage)
    (hclosed : st.queue.closed = false) (hwait : st.queue.awaiters = []) :
    (connectCapture st req).2 = st.heap.length ∧
    (connectCapture st req).1.heap.length = st.heap.length + 1 ∧
    (connectCapture st req).1.count = st.count + 1 ∧
    (connectCapture st req).1.queue.items = st.queue.items ++ [st.heap.length] ∧
    ((connectCapture st req).1.heap)[st.heap.length]? =
      some { mkWrapper req with path := "http://" ++ req.url } ∧
    (mkWrapper req).path = req.url := by
  refine ⟨rfl, by simp [connectCapture], rfl, ?_, ?_, rfl⟩
  · simp only [connectCapture]
    rw [AsyncQueue.add_stores st.queue st.heap.length hclosed hwait]
  · simp only [connectCapture]
    rw [List.getElem?_set_self]
    · simp [mkWrapper]
    · simp

/-- A concrete CONNECT request targeting `h:1`. -/
def connectReqDemo2 : IncomingMessage :=
  { method := "CONNECT", url := "h:1", headers := [], bodyContent := "" }

/-- Witness for the CONNECT capture theorem at an empty proxy state and a
CONNECT request for `h:1`: the reference is stored in the queue and the
heap cell holds the rewritten wrapper. -/
theorem connectCapture_rewrite_semantics_witness :
    (AsyncQueue.empty : AsyncQueue Nat).closed = false ∧
    (connectCapture { heap := [], queue := AsyncQueue.empty, count := 0 }
        connectReqDemo2).1.queue.items = [0] ∧
    ((connectCapture { heap := [], queue := AsyncQueue.empty, count := 0 }
        connectReqDemo2).1.heap)[0]?
      = some { mkWrapper connectReqDemo2 with path := "http://" ++ "h:1" } :=
  have hmain := connectCapture_rewrite_semantics
    { heap := [], queue := AsyncQueue.empty, count := 0 } connectReqDemo2 rfl rfl
  ⟨rfl, by simpa using hmain.2.2.2.1, by simpa [connectReqDemo2] using hmain.2.2.2.2.1⟩

/-- C10: `respond(status, headers, body)` writes body bytes exactly when
the body argument is a defined, non-empty string, and `respond` with the
empty-string body produces exactly the same response as `respond` with the
body omitted. -/
theorem respond_empty_body_semantics (status : Nat)
    (headers : Option (List (String × String))) :
    TestHttpHandlers.respond status headers (some "") =
      TestHttpHandlers.respond status headers none ∧
    (∀ (body : Option String) (req : TestHttpRequest) (c : String),
      ResponseAction.write c ∈ TestHttpHandlers.respond status headers body req ↔
        body = some c ∧ c ≠ "") := by
  constructor
  · funext r
    simp [TestHttpHandlers.respond, jsTruthyStr]
  · intro body req c
    cases body with
    | none =>
      have hlist : TestHttpHandlers.respond status headers none req =
          [ResponseAction.writeHead status headers, ResponseAction.endResponse] := by
        simp [TestHttpHandlers.respond, jsTruthyStr]
      rw [hlist]
      constructor
      · intro hmem
        rcases List.mem_cons.mp hmem with h1 | hmem1
        · exact ResponseAction.noConfusion h1
        · rcases List.mem_cons.mp hmem1 with h2 | hmem2
          · exact ResponseAction.noConfusion h2
          · exact absurd hmem2 (List.not_mem_nil _)
      · rintro ⟨hbc, -⟩
        exact Option.noConfusion hbc
    | some b =>
      by_cases hb : b = ""
      · subst hb
        have hlist : TestHttpHandlers.respond status headers (some "") req =
            [ResponseAction.writeHead status headers, ResponseAction.endResponse] := by
          simp [TestHttpHandlers.respond, jsTruthyStr]
        rw [hlist]
        constructor
        · intro hmem
          rcases List.mem_cons.mp hmem with h1 | hmem1
          · exact ResponseAction.noConfusion h1
          · rcases List.mem_cons.mp hmem1 with h2 | hmem2
            · exact ResponseAction.noConfusion h2
            · exact absurd hmem2 (List.not_mem_nil _)
        · rintro ⟨hbc, hne⟩
          injection hbc with hbc
          exact absurd hbc.symm hne
      · have hlist : TestHttpHandlers.respond status headers (some b) req =
            [ResponseAction.writeHead status headers, ResponseAction.write b,
              ResponseAction.endResponse] := by
          simp [TestHttpHandlers.respond, jsTruthyStr, hb]
        rw [hlist]
        constructor
        · intro hmem
          rcases List.mem_cons.mp hmem with h1 | hmem1
          · exact ResponseAction.noConfusion h1
          · rcases List.mem_cons.mp hmem1 with h2 | hmem2
            · injection h2 with hcb
              constructor
              · rw [hcb]
              · rw [hcb]
                exact hb
            · rcases List.mem_cons.mp hmem2 with h3 | hmem3
              · exact ResponseAction.noConfusion h3
              · exact absurd hmem3 (List.not_mem_nil _)
        · rintro ⟨hbc, -⟩
          injection hbc with hbc
          subst hbc
          exact List.mem_cons_of_mem _ (List.mem_cons_self _ _)
